import Mathlib

/-!
Shallow embedding of the FinEdge scoring core (signal classification,
edge-score composition, technical indicators, ML training/prediction
lifecycle and sentiment aggregation), together with theorems checking the
natural-language specification against it.  Machine floating-point numbers
are modelled by rationals; pandas/NumPy NaN cells are modelled by `Option`
(with comparison semantics `NaN cmp x = false`), and the few places where
IEEE infinities can arise (the RSI quotient) use an explicit extended-value
type.
-/

namespace FinEdge

/-- Clamping helper: the Python idiom `max lo (min hi x)` used throughout
`signals.py`, `indicators.py` and `sentiment.py`. -/
def clamp (lo hi x : ℚ) : ℚ := max lo (min hi x)

/-- Python `round(x, 1)` on the rational model: round to the nearest tenth
(ties resolved by `round`, which is immaterial to every claim below). -/
def round1 (x : ℚ) : ℚ := ((round (10 * x) : ℤ) : ℚ) / 10

/-- Config constant `WEIGHT_ML = 0.45` from `config.py`. -/
def WEIGHT_ML : ℚ := 45 / 100

/-- Config constant `WEIGHT_TECHNICAL = 0.35` from `config.py`. -/
def WEIGHT_TECHNICAL : ℚ := 35 / 100

/-- Config constant `WEIGHT_SENTIMENT = 0.20` from `config.py`. -/
def WEIGHT_SENTIMENT : ℚ := 20 / 100

/-- Config constant `MIN_TRAINING_SAMPLES = 60` from `config.py`. -/
def MIN_TRAINING_SAMPLES : ℕ := 60

/-- The ordered band table `SIGNAL_LABELS` of `signals.py` (a Python dict,
iterated in insertion order): closed intervals paired with their labels. -/
def SIGNAL_LABELS : List ((ℚ × ℚ) × String) :=
  [((60, 100), "STRONG BUY"), ((25, 60), "BUY"), ((-25, 25), "HOLD"),
   ((-60, -25), "SELL"), ((-100, -60), "STRONG SELL")]

/-- `classify_signal` of `signals.py`: return the label of the first band
`(lo, hi)` with `lo ≤ score ≤ hi`, defaulting to `"HOLD"`. -/
def classify_signal (score : ℚ) : String :=
  match SIGNAL_LABELS.find? (fun p => decide (p.1.1 ≤ score) && decide (score ≤ p.1.2)) with
  | some p => p.2
  | none => "HOLD"

/-- The composite edge-score computation of `generate_signal`
(`signals.py` lines 74-79): weighted sum, clamped to `[-100, 100]`, rounded
to one decimal. -/
def edge_score (ml ta sent w_ml w_ta w_sent : ℚ) : ℚ :=
  round1 (clamp (-100) 100 (ml * w_ml + ta * w_ta + sent * w_sent))

/-- Unfolding of `classify_signal` into the conditional chain induced by the
ordered traversal of `SIGNAL_LABELS`. -/
theorem classify_signal_eq (s : ℚ) : classify_signal s =
    if 60 ≤ s ∧ s ≤ 100 then "STRONG BUY"
    else if 25 ≤ s ∧ s ≤ 60 then "BUY"
    else if -25 ≤ s ∧ s ≤ 25 then "HOLD"
    else if -60 ≤ s ∧ s ≤ -25 then "SELL"
    else if -100 ≤ s ∧ s ≤ -60 then "STRONG SELL"
    else "HOLD" := by
  simp only [classify_signal, SIGNAL_LABELS, List.find?, ← Bool.decide_and]
  by_cases h1 : 60 ≤ s ∧ s ≤ 100
  · simp [h1]
  · by_cases h2 : 25 ≤ s ∧ s ≤ 60
    · simp [h1, h2]
    · by_cases h3 : -25 ≤ s ∧ s ≤ 25
      · simp [h1, h2, h3]
      · by_cases h4 : -60 ≤ s ∧ s ≤ -25
        · simp [h1, h2, h3, h4]
        · by_cases h5 : -100 ≤ s ∧ s ≤ -60
          · simp [h1, h2, h3, h4, h5]
          · simp [h1, h2, h3, h4, h5]

/-- C1 counterexample: the spec's partition puts 25 in HOLD (its band
`[-25,25]` is closed) and 60 in BUY (band `(25,60]`), but `classify_signal`
returns "BUY" at 25 and "STRONG BUY" at 60, because the band whose lower
endpoint equals the score is found first. -/
theorem classify_signal_boundary_counterexample :
    classify_signal 25 = "BUY" ∧ classify_signal 25 ≠ "HOLD" ∧
    classify_signal 60 = "STRONG BUY" ∧ classify_signal 60 ≠ "BUY" := by
  refine ⟨by decide, by decide, by decide, by decide⟩

/-- C1 (amended): `classify_signal` realises the half-open partition in
which every boundary value belongs to the band above it: scores in
`[-100,-60)` map to STRONG SELL, `[-60,-25)` to SELL, `[-25,25)` to HOLD,
`[25,60)` to BUY and `[60,100]` to STRONG BUY; in particular -60, -25, 25
and 60 each map deterministically to the upper adjacent band. -/
theorem classify_signal_band_partition (s : ℚ) :
    (-100 ≤ s → s < -60 → classify_signal s = "STRONG SELL") ∧
    (-60 ≤ s → s < -25 → classify_signal s = "SELL") ∧
    (-25 ≤ s → s < 25 → classify_signal s = "HOLD") ∧
    (25 ≤ s → s < 60 → classify_signal s = "BUY") ∧
    (60 ≤ s → s ≤ 100 → classify_signal s = "STRONG BUY") := by
  refine ⟨fun h h' => ?_, fun h h' => ?_, fun h h' => ?_, fun h h' => ?_,
    fun h h' => ?_⟩
  · rw [classify_signal_eq, if_neg (by rintro ⟨a, b⟩; linarith),
      if_neg (by rintro ⟨a, b⟩; linarith), if_neg (by rintro ⟨a, b⟩; linarith),
      if_neg (by rintro ⟨a, b⟩; linarith), if_pos ⟨h, h'.le⟩]
  · rw [classify_signal_eq, if_neg (by rintro ⟨a, b⟩; linarith),
      if_neg (by rintro ⟨a, b⟩; linarith), if_neg (by rintro ⟨a, b⟩; linarith),
      if_pos ⟨h, h'.le⟩]
  · rw [classify_signal_eq, if_neg (by rintro ⟨a, b⟩; linarith),
      if_neg (by rintro ⟨a, b⟩; linarith), if_pos ⟨h, h'.le⟩]
  · rw [classify_signal_eq, if_neg (by rintro ⟨a, b⟩; linarith),
      if_pos ⟨h, h'.le⟩]
  · rw [classify_signal_eq, if_pos ⟨h, h'⟩]

/-- Witness for `classify_signal_band_partition` at the boundary scores 60
and -30. -/
theorem classify_signal_band_partition_witness :
    classify_signal 60 = "STRONG BUY" ∧ classify_signal (-30) = "SELL" := by
  constructor
  · exact (classify_signal_band_partition 60).2.2.2.2 (by norm_num) (by norm_num)
  · exact (classify_signal_band_partition (-30)).2.1 (by norm_num) (by norm_num)

/-- Bounds of `clamp`. -/
theorem clamp_mem (lo hi x : ℚ) (h : lo ≤ hi) :
    lo ≤ clamp lo hi x ∧ clamp lo hi x ≤ hi :=
  ⟨le_max_left lo _, max_le h (min_le_left hi x)⟩

/-- Rounding to one decimal stays inside `[-100, 100]`. -/
theorem round1_mem (x : ℚ) (hl : -100 ≤ x) (hu : x ≤ 100) :
    -100 ≤ round1 x ∧ round1 x ≤ 100 := by
  have hup : round (10 * x) ≤ 1000 := by
    have : round (10 * x) < 1001 := by
      rw [round_eq, Int.floor_lt]
      push_cast
      linarith
    omega
  have hlo : (-1000 : ℤ) ≤ round (10 * x) := by
    rw [round_eq, Int.le_floor]
    push_cast
    linarith
  have hup' : ((round (10 * x) : ℤ) : ℚ) ≤ 1000 := by exact_mod_cast hup
  have hlo' : (-1000 : ℚ) ≤ ((round (10 * x) : ℤ) : ℚ) := by exact_mod_cast hlo
  constructor
  · rw [round1]; linarith
  · rw [round1]; linarith

/-- C3: the composite edge score equals the weighted sum of the three
sub-scores clamped to `[-100, 100]` and rounded to one decimal, and is
bounded by `[-100, 100]` for every sub-score triple and every weight
configuration. -/
theorem edge_score_formula_and_bounds (ml ta sent w1 w2 w3 : ℚ) :
    edge_score ml ta sent w1 w2 w3
      = round1 (clamp (-100) 100 (ml * w1 + ta * w2 + sent * w3)) ∧
    -100 ≤ edge_score ml ta sent w1 w2 w3 ∧
    edge_score ml ta sent w1 w2 w3 ≤ 100 := by
  have hc := clamp_mem (-100) 100 (ml * w1 + ta * w2 + sent * w3) (by norm_num)
  have hr := round1_mem _ hc.1 hc.2
  exact ⟨rfl, hr.1, hr.2⟩

/-- Multiplication of a polarity by an integer weight, as in the generator
expression `s * w` of `analyze_ticker`. -/
def wmul (s : ℚ) (w : ℕ) : ℚ := s * (w : ℚ)

/-- The recency-weighted average of `analyze_ticker` (`sentiment.py` lines
73-78): headline polarities are paired with the integer weights
`1, 2, ..., n` in supplied order and averaged; an empty score list yields
0. -/
def analyze_scores (scores : List ℚ) : ℚ :=
  if scores.isEmpty then 0
  else
    (List.zipWith wmul scores (List.range' 1 scores.length)).sum /
      (((List.range' 1 scores.length).sum : ℕ) : ℚ)

/-- `get_sentiment_score` of `sentiment.py`: the raw average scaled by 100,
clamped to `[-100, 100]` and rounded to one decimal. -/
def get_sentiment_score (scores : List ℚ) : ℚ :=
  round1 (clamp (-100) 100 (analyze_scores scores * 100))

/-- The spec's description of the weighted average: the k-th headline
(1-indexed, supplied order) receives weight k, so the raw score is
`(Σ s_k·k) / (n(n+1)/2)`. -/
def specWeightedAvg (scores : List ℚ) : ℚ :=
  ((List.range scores.length).map (fun k => scores.getD k 0 * ((k : ℚ) + 1))).sum /
    ((scores.length : ℚ) * ((scores.length : ℚ) + 1) / 2)

/-- The simple (unweighted) mean score the spec's test must distinguish
from the weighted one. -/
def simpleMeanScore (scores : List ℚ) : ℚ :=
  round1 (clamp (-100) 100 (scores.sum / ((scores.length : ℕ) : ℚ) * 100))

/-- The zipWith-against-weights sum of the code equals the indexed sum of
the spec, for an arbitrary starting weight. -/
theorem zipWith_weights_sum (scores : List ℚ) : ∀ a : ℕ,
    (List.zipWith wmul scores (List.range' a scores.length)).sum
      = ((List.range scores.length).map
          (fun k => scores.getD k 0 * ((k : ℚ) + (a : ℚ)))).sum := by
  induction scores with
  | nil => intro a; simp
  | cons x xs ih =>
    intro a
    rw [List.length_cons, List.range'_succ, List.zipWith_cons_cons,
      List.range_succ_eq_map, List.map_cons, List.sum_cons, List.sum_cons,
      List.map_map, ih (a + 1)]
    have hmap : ((List.range xs.length).map
          (fun k => xs.getD k 0 * ((k : ℚ) + ((a + 1 : ℕ) : ℚ))))
        = ((List.range xs.length).map
          ((fun k => (x :: xs).getD k 0 * ((k : ℚ) + (a : ℚ))) ∘ Nat.succ)) := by
      refine List.map_congr_left (fun k _ => ?_)
      simp only [Function.comp_apply, List.getD_cons_succ]
      push_cast
      ring
    rw [hmap]
    simp [wmul]

/-- Gauss sum for the weight list `range' 1 n`, cast to the rationals. -/
theorem range'_weight_sum (n : ℕ) :
    (((List.range' 1 n).sum : ℕ) : ℚ) = (n : ℚ) * ((n : ℚ) + 1) / 2 := by
  induction n with
  | zero => simp
  | succ m ih =>
    rw [List.range'_concat, List.sum_append, Nat.cast_add, ih]
    simp only [List.sum_cons, List.sum_nil, Nat.add_zero]
    push_cast
    ring

/-- C9: the sentiment score is the weight-increasing average (k-th headline
gets weight k) scaled by 100 and clamped; on the polarities
`[0.2, -0.1, 0.4]` it equals exactly 20, which differs from the clamped,
rounded simple mean (16.7). -/
theorem sentiment_weighted_average_spec :
    (∀ scores : List ℚ, analyze_scores scores = specWeightedAvg scores) ∧
    get_sentiment_score [1/5, -1/10, 2/5] = 20 ∧
    simpleMeanScore [1/5, -1/10, 2/5] = 167/10 ∧
    get_sentiment_score [1/5, -1/10, 2/5] ≠ simpleMeanScore [1/5, -1/10, 2/5] := by
  have havg : analyze_scores [1/5, -1/10, 2/5] = 1/5 := by
    norm_num [analyze_scores, List.range', wmul]
  have h20 : get_sentiment_score [1/5, -1/10, 2/5] = 20 := by
    rw [get_sentiment_score, havg]
    rw [show clamp (-100) 100 (1/5 * 100) = 20 by norm_num [clamp]]
    rw [round1, show (10 : ℚ) * 20 = ((200:ℤ):ℚ) by norm_num, round_intCast]
    norm_num
  have hmean : simpleMeanScore [1/5, -1/10, 2/5] = 167/10 := by
    rw [simpleMeanScore]
    rw [show clamp (-100) 100 (([(1:ℚ)/5, -1/10, 2/5].sum /
        ((([(1:ℚ)/5, -1/10, 2/5].length : ℕ)) : ℚ)) * 100) = 50/3 by
      norm_num [clamp]]
    rw [round1, show (10 : ℚ) * (50/3) = 500/3 by norm_num]
    rw [show round ((500:ℚ)/3) = 167 by rw [round_eq]; norm_num [Int.floor_eq_iff]]
    norm_num
  refine ⟨fun scores => ?_, h20, hmean, ?_⟩
  · cases scores with
    | nil => simp [analyze_scores, specWeightedAvg]
    | cons x xs =>
      rw [analyze_scores, specWeightedAvg, if_neg (by simp),
        zipWith_weights_sum (x :: xs) 1, range'_weight_sum]
      norm_num
  · rw [h20, hmean]
    norm_num

/-- One OHLCV price bar (`Open, High, Low, Close, Volume`). -/
structure Bar where
  op : ℚ
  hi : ℚ
  lo : ℚ
  close : ℚ
  vol : ℚ
deriving DecidableEq

/-- A pandas DataFrame as the Indicator Engine sees it: the fetched bars
plus named derived columns, where a `none` cell models NaN. -/
structure DataFrame where
  bars : List Bar
  derived : List (String × List (Option ℚ))
deriving DecidableEq

/-- Pandas `rolling(w).mean()`: NaN until the window holds `w` observations,
then the mean of the last `w` values. -/
def rollingMean (w : ℕ) (xs : List ℚ) : List (Option ℚ) :=
  (List.range xs.length).map (fun i =>
    if i + 1 < w then none
    else some (((xs.take (i + 1)).drop (i + 1 - w)).sum / (w : ℚ)))

/-- Pandas the elementwise `>` between two float series: any comparison
involving NaN is false. -/
def gtOpt (a b : Option ℚ) : Bool :=
  match a, b with
  | some x, some y => decide (x > y)
  | _, _ => false

/-- `np.where(fast > slow, 1, -1)` from `compute_all` lines 76-77: a total
column that is 1 where the comparison holds and -1 everywhere else,
including rows where either SMA is NaN. -/
def smaCrossCol (fast slow : List (Option ℚ)) : List ℚ :=
  List.zipWith (fun a b => if gtOpt a b then (1 : ℚ) else -1) fast slow

/-- The column assignments `compute_all` performs on the copied frame.  The
moving averages and crossover flags claims C2 and C10 concern are modelled;
the remaining indicator families are embedded separately (`ewm`/`rsiAt` for
RSI, `get_ta_score` for the scorer's reading of the enriched row). -/
def enrichColumns (df : DataFrame) : DataFrame :=
  { df with derived := df.derived ++
      [("SMA_10", rollingMean 10 (df.bars.map Bar.close)),
       ("SMA_20", rollingMean 20 (df.bars.map Bar.close)),
       ("SMA_50", rollingMean 50 (df.bars.map Bar.close)),
       ("SMA_Cross_10_20", (smaCrossCol (rollingMean 10 (df.bars.map Bar.close))
          (rollingMean 20 (df.bars.map Bar.close))).map some),
       ("SMA_Cross_20_50", (smaCrossCol (rollingMean 20 (df.bars.map Bar.close))
          (rollingMean 50 (df.bars.map Bar.close))).map some)] }

/-- `compute_all` of `indicators.py` as a value-level function: with fewer
than 30 bars the input is returned untouched, otherwise the derived columns
are produced (on a copy; see `compute_all_ref` for the reference
semantics). -/
def compute_all (df : DataFrame) : DataFrame :=
  if df.bars.length < 30 then df else enrichColumns df

/-- Reference/heap semantics of `compute_all`: the caller's frame lives at
index `r` of a heap of frames.  With fewer than 30 bars the same reference
is returned and the heap is untouched; otherwise `df.copy()` allocates a
fresh frame at the end of the heap and all column writes hit the copy. -/
def compute_all_ref (heap : List DataFrame) (r : ℕ) : ℕ × List DataFrame :=
  match heap[r]? with
  | none => (r, heap)
  | some df =>
    if df.bars.length < 30 then (r, heap)
    else (heap.length, heap ++ [enrichColumns df])

/-- Cell access `df[name][i]`: outer `none` when the column (or row) does
not exist, inner `none` for a NaN cell. -/
def colVal (df : DataFrame) (name : String) (i : ℕ) : Option (Option ℚ) :=
  match df.derived.find? (fun p => p.1 == name) with
  | some p => p.2[i]?
  | none => none

/-- An input frame as fetched: raw bars, no derived columns. -/
def mkFrame (bars : List Bar) : DataFrame := { bars := bars, derived := [] }

/-- A 30-bar constant series, long enough for `compute_all` to enrich. -/
def c2bars : List Bar := List.replicate 30 ⟨1, 1, 1, 1, 1⟩

theorem rollingMean_length (w : ℕ) (xs : List ℚ) :
    (rollingMean w xs).length = xs.length := by
  simp [rollingMean]

theorem rollingMean_getElem (w : ℕ) (xs : List ℚ) (i : ℕ) (h : i < xs.length) :
    (rollingMean w xs)[i]? = some (if i + 1 < w then none
      else some (((xs.take (i + 1)).drop (i + 1 - w)).sum / (w : ℚ))) := by
  simp [rollingMean, List.getElem?_range h]

/-- Each crossover cell is a defined value in `{1, -1}`, and is -1 whenever
the slower SMA cell is NaN (a NaN comparison is false, so `np.where` takes
the else branch). -/
theorem smaCrossCol_cell (fast slow : List (Option ℚ)) (i : ℕ)
    (hf : i < fast.length) (hs : i < slow.length) :
    ∃ v : ℚ, (smaCrossCol fast slow)[i]? = some v ∧ (v = 1 ∨ v = -1) ∧
      (slow[i]? = some none → v = -1) := by
  obtain ⟨a, ha⟩ : ∃ a, fast[i]? = some a := ⟨fast[i], List.getElem?_eq_getElem hf⟩
  obtain ⟨b, hb⟩ : ∃ b, slow[i]? = some b := ⟨slow[i], List.getElem?_eq_getElem hs⟩
  refine ⟨if gtOpt a b then 1 else -1, ?_, ?_, ?_⟩
  · rw [smaCrossCol, List.getElem?_zipWith, ha, hb]
  · by_cases h : gtOpt a b <;> simp [h]
  · intro hbn
    rw [hb] at hbn
    obtain rfl : b = none := by injection hbn
    cases a <;> simp [gtOpt]

/-- The enriched frame's cells, column by column, for a raw input frame of
at least 30 bars. -/
theorem colVal_compute_all (bars : List Bar) (hlen : 30 ≤ bars.length) (i : ℕ) :
    colVal (compute_all (mkFrame bars)) "SMA_10" i
        = (rollingMean 10 (bars.map Bar.close))[i]? ∧
    colVal (compute_all (mkFrame bars)) "SMA_20" i
        = (rollingMean 20 (bars.map Bar.close))[i]? ∧
    colVal (compute_all (mkFrame bars)) "SMA_50" i
        = (rollingMean 50 (bars.map Bar.close))[i]? ∧
    colVal (compute_all (mkFrame bars)) "SMA_Cross_10_20" i
        = ((smaCrossCol (rollingMean 10 (bars.map Bar.close))
            (rollingMean 20 (bars.map Bar.close))).map some)[i]? ∧
    colVal (compute_all (mkFrame bars)) "SMA_Cross_20_50" i
        = ((smaCrossCol (rollingMean 20 (bars.map Bar.close))
            (rollingMean 50 (bars.map Bar.close))).map some)[i]? := by
  have h30 : ¬ (mkFrame bars).bars.length < 30 := by simp [mkFrame]; omega
  simp only [compute_all, if_neg h30]
  exact ⟨rfl, rfl, rfl, rfl, rfl⟩

/-- C2 counterexample: on a 30-bar constant series the 10-bar SMA is
undefined (NaN) at row 0, yet the crossover flag `SMA_Cross_10_20` at row 0
is the defined default value -1 rather than being undefined. -/
theorem compute_all_warmup_counterexample :
    colVal (compute_all (mkFrame c2bars)) "SMA_10" 0 = some none ∧
    colVal (compute_all (mkFrame c2bars)) "SMA_Cross_10_20" 0 = some (some (-1)) := by
  decide

/-- C2 (amended): for every accepted series (at least 30 bars) the SMA
columns are undefined (NaN) at every row with fewer preceding bars than
the window requires, but the crossover flags are total: every cell is a
defined value in `{1, -1}`, equal to -1 (not undefined) on the warm-up
rows where the underlying slower SMA is still undefined. -/
theorem compute_all_warmup_columns (bars : List Bar) (i : ℕ)
    (hlen : 30 ≤ bars.length) (hi : i < bars.length) :
    (i + 1 < 10 → colVal (compute_all (mkFrame bars)) "SMA_10" i = some none) ∧
    (i + 1 < 20 → colVal (compute_all (mkFrame bars)) "SMA_20" i = some none) ∧
    (i + 1 < 50 → colVal (compute_all (mkFrame bars)) "SMA_50" i = some none) ∧
    (∃ v : ℚ, colVal (compute_all (mkFrame bars)) "SMA_Cross_10_20" i
        = some (some v) ∧ (v = 1 ∨ v = -1) ∧ (i + 1 < 20 → v = -1)) ∧
    (∃ v : ℚ, colVal (compute_all (mkFrame bars)) "SMA_Cross_20_50" i
        = some (some v) ∧ (v = 1 ∨ v = -1) ∧ (i + 1 < 50 → v = -1)) := by
  obtain ⟨e10, e20, e50, ex12, ex25⟩ := colVal_compute_all bars hlen i
  have hmi : i < (bars.map Bar.close).length := by simpa using hi
  have hri : ∀ w : ℕ, i < (rollingMean w (bars.map Bar.close)).length := by
    intro w; rw [rollingMean_length]; exact hmi
  refine ⟨?_, ?_, ?_, ?_, ?_⟩
  · intro h; rw [e10, rollingMean_getElem 10 _ i hmi, if_pos h]
  · intro h; rw [e20, rollingMean_getElem 20 _ i hmi, if_pos h]
  · intro h; rw [e50, rollingMean_getElem 50 _ i hmi, if_pos h]
  · obtain ⟨v, hv, hv1, hvn⟩ := smaCrossCol_cell _ _ i (hri 10) (hri 20)
    refine ⟨v, ?_, hv1, fun h => hvn ?_⟩
    · rw [ex12, List.getElem?_map, hv]
      rfl
    · rw [rollingMean_getElem 20 _ i hmi, if_pos h]
  · obtain ⟨v, hv, hv1, hvn⟩ := smaCrossCol_cell _ _ i (hri 20) (hri 50)
    refine ⟨v, ?_, hv1, fun h => hvn ?_⟩
    · rw [ex25, List.getElem?_map, hv]
      rfl
    · rw [rollingMean_getElem 50 _ i hmi, if_pos h]

/-- Witness for `compute_all_warmup_columns` on the concrete 30-bar
series at row 0. -/
theorem compute_all_warmup_columns_witness :
    ∃ v : ℚ, colVal (compute_all (mkFrame c2bars)) "SMA_Cross_20_50" 0
      = some (some v) ∧ (v = 1 ∨ v = -1) ∧ (0 + 1 < 50 → v = -1) :=
  (compute_all_warmup_columns c2bars 0 (by decide) (by decide)).2.2.2.2

/-- C10: `compute_all` never mutates the caller's frame.  With fewer than
30 bars it returns the very same reference with the heap untouched (nothing
added to the frame); otherwise the enrichment is written onto a freshly
allocated copy, and the frame the caller holds at `r` is field-for-field
unchanged. -/
theorem compute_all_no_mutation (heap : List DataFrame) (r : ℕ) (df : DataFrame)
    (h : heap[r]? = some df) :
    ((compute_all_ref heap r).2)[r]? = some df ∧
    (df.bars.length < 30 → compute_all_ref heap r = (r, heap)) ∧
    ((compute_all_ref heap r).2)[(compute_all_ref heap r).1]?
      = some (compute_all df) := by
  have hr : r < heap.length := by
    by_contra hc
    rw [List.getElem?_eq_none (by omega)] at h
    exact Option.noConfusion h
  by_cases hlen : df.bars.length < 30
  · have hres : compute_all_ref heap r = (r, heap) := by
      rw [compute_all_ref, h]
      simp [hlen]
    refine ⟨by rw [hres]; exact h, fun _ => hres, ?_⟩
    rw [hres, compute_all, if_pos hlen]
    exact h
  · have hres : compute_all_ref heap r = (heap.length, heap ++ [enrichColumns df]) := by
      rw [compute_all_ref, h]
      simp [hlen]
    refine ⟨?_, fun hc => absurd hc hlen, ?_⟩
    · rw [hres]
      rw [List.getElem?_append_left hr]
      exact h
    · rw [hres, compute_all, if_neg hlen]
      exact List.getElem?_concat_length heap (enrichColumns df)

/-- Witness for `compute_all_no_mutation`: a singleton heap holding an
empty frame (the short-series branch). -/
theorem compute_all_no_mutation_witness :
    ((compute_all_ref [mkFrame []] 0).2)[0]? = some (mkFrame []) ∧
    compute_all_ref [mkFrame []] 0 = (0, [mkFrame []]) := by
  have h := compute_all_no_mutation [mkFrame []] 0 (mkFrame []) rfl
  exact ⟨h.1, h.2.1 (by decide)⟩

/-- An IEEE-style extended value: finite, positive or negative infinity, or
NaN.  Used where the float code can produce a non-finite value (the RSI
quotient `avg_gain / avg_loss`). -/
inductive FV where
  | fin (q : ℚ)
  | pinf
  | ninf
  | nan
deriving DecidableEq

/-- Division of two finite floats, IEEE semantics: a zero divisor gives a
signed infinity, or NaN for 0/0. -/
def fdivQ (a b : ℚ) : FV :=
  if b ≠ 0 then .fin (a / b)
  else if 0 < a then .pinf
  else if a < 0 then .ninf
  else .nan

/-- IEEE addition of a finite constant: infinities and NaN absorb. -/
def faddC (c : ℚ) : FV → FV
  | .fin q => .fin (c + q)
  | .pinf => .pinf
  | .ninf => .ninf
  | .nan => .nan

/-- IEEE division of a finite constant by an extended value: a finite
constant over an infinity is 0, over NaN is NaN, over 0 a signed infinity
or NaN. -/
def fdivC (c : ℚ) : FV → FV
  | .fin q =>
      if q ≠ 0 then .fin (c / q)
      else if 0 < c then .pinf
      else if c < 0 then .ninf
      else .nan
  | .pinf => .fin 0
  | .ninf => .fin 0
  | .nan => .nan

/-- IEEE subtraction of an extended value from a finite constant. -/
def fsubC (c : ℚ) : FV → FV
  | .fin q => .fin (c - q)
  | .pinf => .ninf
  | .ninf => .pinf
  | .nan => .nan

/-- The arithmetic of `_compute_rsi` lines 101-102 applied to the two
smoothed averages: `100 - 100 / (1 + avg_gain / avg_loss)` under float
semantics. -/
def rsiFromAvgs (g l : ℚ) : FV :=
  fsubC 100 (fdivC 100 (faddC 1 (fdivQ g l)))

/-- Tail of pandas `ewm(alpha=a, adjust=False).mean()`:
`y_t = (1-a)·y_(t-1) + a·x_t`. -/
def ewmAcc (a prev : ℚ) : List ℚ → List ℚ
  | [] => []
  | x :: xs => ((1 - a) * prev + a * x) :: ewmAcc a ((1 - a) * prev + a * x) xs

/-- Pandas `ewm(alpha=a, adjust=False).mean()` on a series with no NaN:
seeded at the first observation. -/
def ewm (a : ℚ) : List ℚ → List ℚ
  | [] => []
  | x :: xs => x :: ewmAcc a x xs

/-- The gain series of `_compute_rsi`: `delta.where(delta > 0, 0.0)`.  The
first delta is NaN and `NaN > 0` is false, so position 0 is coerced to
0.0, not NaN. -/
def gainsOf (closes : List ℚ) : List ℚ :=
  match closes with
  | [] => []
  | _ :: _ =>
      0 :: List.zipWith (fun cur prev => if 0 < cur - prev then cur - prev else 0)
        closes.tail closes

/-- The loss series of `_compute_rsi`: `-delta.where(delta < 0, 0.0)`. -/
def lossesOf (closes : List ℚ) : List ℚ :=
  match closes with
  | [] => []
  | _ :: _ =>
      0 :: List.zipWith (fun cur prev => if cur - prev < 0 then -(cur - prev) else 0)
        closes.tail closes

/-- Wilder-smoothed average gain at index `i` (`ewm(alpha=1/14)`). -/
def avgGain (closes : List ℚ) (i : ℕ) : ℚ :=
  (ewm (1/14) (gainsOf closes)).getD i 0

/-- Wilder-smoothed average loss at index `i`. -/
def avgLoss (closes : List ℚ) (i : ℕ) : ℚ :=
  (ewm (1/14) (lossesOf closes)).getD i 0

/-- RSI(14) at index `i`: masked (`min_periods=14`) before 14 observations
exist, otherwise the float value of `100 - 100/(1 + avg_gain/avg_loss)`. -/
def rsiAt (closes : List ℚ) (i : ℕ) : Option FV :=
  if i + 1 < 14 ∨ closes.length ≤ i then none
  else some (rsiFromAvgs (avgGain closes i) (avgLoss closes i))

theorem ewmAcc_nonneg (a : ℚ) (ha0 : 0 ≤ a) (ha1 : a ≤ 1) :
    ∀ (xs : List ℚ) (prev : ℚ), 0 ≤ prev → (∀ x ∈ xs, 0 ≤ x) →
      ∀ y ∈ ewmAcc a prev xs, 0 ≤ y := by
  intro xs
  induction xs with
  | nil => intro prev _ _ y hy; simp [ewmAcc] at hy
  | cons x xs ih =>
    intro prev hp hxs y hy
    have hv : 0 ≤ (1 - a) * prev + a * x :=
      add_nonneg (mul_nonneg (by linarith) hp)
        (mul_nonneg ha0 (hxs x (List.mem_cons_self x xs)))
    rw [ewmAcc, List.mem_cons] at hy
    rcases hy with rfl | hy
    · exact hv
    · exact ih _ hv (fun z hz => hxs z (List.mem_cons_of_mem x hz)) y hy

theorem ewm_nonneg (a : ℚ) (ha0 : 0 ≤ a) (ha1 : a ≤ 1)
    (xs : List ℚ) (hxs : ∀ x ∈ xs, 0 ≤ x) : ∀ y ∈ ewm a xs, 0 ≤ y := by
  cases xs with
  | nil => intro y hy; simp [ewm] at hy
  | cons x xs =>
    intro y hy
    rw [ewm, List.mem_cons] at hy
    rcases hy with rfl | hy
    · exact hxs y (List.mem_cons_self y xs)
    · exact ewmAcc_nonneg a ha0 ha1 xs x (hxs x (List.mem_cons_self x xs))
        (fun z hz => hxs z (List.mem_cons_of_mem x hz)) y hy

theorem relu_zip_nonneg (f : ℚ → ℚ → ℚ) (hf : ∀ c p, 0 ≤ f c p) :
    ∀ (l₁ l₂ : List ℚ), ∀ y ∈ List.zipWith f l₁ l₂, 0 ≤ y := by
  intro l₁
  induction l₁ with
  | nil => intro l₂ y hy; simp at hy
  | cons x xs ih =>
    intro l₂ y hy
    cases l₂ with
    | nil => simp at hy
    | cons b bs =>
      rw [List.zipWith_cons_cons, List.mem_cons] at hy
      rcases hy with rfl | hy
      · exact hf x b
      · exact ih bs y hy

theorem gainsOf_nonneg (closes : List ℚ) : ∀ y ∈ gainsOf closes, 0 ≤ y := by
  cases closes with
  | nil => intro y hy; simp [gainsOf] at hy
  | cons c cs =>
    intro y hy
    rw [gainsOf, List.mem_cons] at hy
    rcases hy with rfl | hy
    · exact le_refl 0
    · refine relu_zip_nonneg _ (fun c p => ?_) _ _ y hy
      split <;> linarith

theorem lossesOf_nonneg (closes : List ℚ) : ∀ y ∈ lossesOf closes, 0 ≤ y := by
  cases closes with
  | nil => intro y hy; simp [lossesOf] at hy
  | cons c cs =>
    intro y hy
    rw [lossesOf, List.mem_cons] at hy
    rcases hy with rfl | hy
    · exact le_refl 0
    · refine relu_zip_nonneg _ (fun c p => ?_) _ _ y hy
      split <;> linarith

theorem avgGain_nonneg (closes : List ℚ) (i : ℕ) : 0 ≤ avgGain closes i := by
  rw [avgGain, List.getD_eq_getElem?_getD]
  cases h : (ewm (1/14) (gainsOf closes))[i]? with
  | none => simp
  | some y =>
    simp only [Option.getD_some]
    exact ewm_nonneg (1/14) (by norm_num) (by norm_num) _ (gainsOf_nonneg closes)
      y (List.getElem?_mem h)

theorem avgLoss_nonneg (closes : List ℚ) (i : ℕ) : 0 ≤ avgLoss closes i := by
  rw [avgLoss, List.getD_eq_getElem?_getD]
  cases h : (ewm (1/14) (lossesOf closes))[i]? with
  | none => simp
  | some y =>
    simp only [Option.getD_some]
    exact ewm_nonneg (1/14) (by norm_num) (by norm_num) _ (lossesOf_nonneg closes)
      y (List.getElem?_mem h)

/-- C7: once RSI(14) is defined (a finite value), it lies in `[0, 100]`;
it equals exactly 100 precisely when the smoothed average loss is 0 and
the average gain is positive (the division by a zero `avg_loss` yields
RSI = 100 through the float arithmetic); and no infinity is ever
produced. -/
theorem rsi_range_and_loss_zero (closes : List ℚ) (i : ℕ) :
    (∀ v : ℚ, rsiAt closes i = some (.fin v) → 0 ≤ v ∧ v ≤ 100) ∧
    (rsiAt closes i = some (.fin 100) ↔
      (13 ≤ i ∧ i < closes.length ∧ avgLoss closes i = 0 ∧ 0 < avgGain closes i)) ∧
    rsiAt closes i ≠ some .pinf ∧ rsiAt closes i ≠ some .ninf := by
  by_cases hdef : i + 1 < 14 ∨ closes.length ≤ i
  · rw [rsiAt, if_pos hdef]
    refine ⟨fun v hv => Option.noConfusion hv, ?_, fun hv => Option.noConfusion hv,
      fun hv => Option.noConfusion hv⟩
    refine ⟨fun hv => Option.noConfusion hv, ?_⟩
    rintro ⟨h13, hlt, -, -⟩
    rcases hdef with h | h <;> omega
  · have hg := avgGain_nonneg closes i
    have hl := avgLoss_nonneg closes i
    rw [rsiAt, if_neg hdef]
    by_cases hl0 : avgLoss closes i = 0
    · by_cases hgpos : 0 < avgGain closes i
      · have hval : rsiFromAvgs (avgGain closes i) (avgLoss closes i) = .fin 100 := by
          rw [rsiFromAvgs, fdivQ, if_neg (by simp [hl0]), if_pos hgpos]
          show FV.fin (100 - 0) = FV.fin 100
          norm_num
        rw [hval]
        refine ⟨fun v hv => ?_, ?_, by simp, by simp⟩
        · obtain rfl : (100 : ℚ) = v := by injection hv with h; injection h
          norm_num
        · exact ⟨fun _ => ⟨by omega, by omega, hl0, hgpos⟩, fun _ => rfl⟩
      · have hg0 : avgGain closes i = 0 := le_antisymm (not_lt.mp hgpos) hg
        have hval : rsiFromAvgs (avgGain closes i) (avgLoss closes i) = .nan := by
          rw [rsiFromAvgs, fdivQ, if_neg (by simp [hl0]), if_neg (by rw [hg0]; norm_num),
            if_neg (by rw [hg0]; norm_num)]
          rfl
        rw [hval]
        refine ⟨fun v hv => by simp at hv, ?_, by simp, by simp⟩
        refine ⟨fun hv => by simp at hv, ?_⟩
        rintro ⟨-, -, -, hpos⟩
        exact absurd hpos hgpos
    · have hlpos : 0 < avgLoss closes i := lt_of_le_of_ne hl (Ne.symm hl0)
      have hq : 0 ≤ avgGain closes i / avgLoss closes i := div_nonneg hg hl
      have h1q : 0 < 1 + avgGain closes i / avgLoss closes i := by linarith
      have hval : rsiFromAvgs (avgGain closes i) (avgLoss closes i)
          = .fin (100 - 100 / (1 + avgGain closes i / avgLoss closes i)) := by
        rw [rsiFromAvgs, fdivQ, if_pos hl0]
        show fsubC 100 (fdivC 100 (.fin (1 + avgGain closes i / avgLoss closes i))) = _
        rw [fdivC, if_pos (ne_of_gt h1q)]
        rfl
      rw [hval]
      have hdivpos : 0 < 100 / (1 + avgGain closes i / avgLoss closes i) :=
        div_pos (by norm_num) h1q
      have hdivle : 100 / (1 + avgGain closes i / avgLoss closes i) ≤ 100 := by
        rw [div_le_iff₀ h1q]
        nlinarith
      refine ⟨fun v hv => ?_, ?_, by simp, by simp⟩
      · obtain rfl : 100 - 100 / (1 + avgGain closes i / avgLoss closes i) = v := by
          injection hv with h; injection h
        constructor <;> linarith
      · refine ⟨fun hv => ?_, ?_⟩
        · have : (100 : ℚ) - 100 / (1 + avgGain closes i / avgLoss closes i) = 100 := by
            injection hv with h; injection h
          linarith
        · rintro ⟨-, -, hzero, -⟩
          exact absurd hzero hl0

/-- Witness for `rsi_range_and_loss_zero`: a strictly increasing 15-bar
close series has zero average loss and positive average gain at index 14,
so RSI evaluates to exactly 100 there. -/
theorem rsi_range_and_loss_zero_witness :
    rsiAt [1, 2, 3, 4, 5, 6, 7, 8, 9, 10, 11, 12, 13, 14, 15] 14 = some (.fin 100) :=
  (rsi_range_and_loss_zero [1, 2, 3, 4, 5, 6, 7, 8, 9, 10, 11, 12, 13, 14, 15] 14).2.1.mpr
    ⟨by norm_num, by norm_num,
      by norm_num [avgLoss, lossesOf, ewm, ewmAcc, List.zipWith, List.getD],
      by norm_num [avgGain, gainsOf, ewm, ewmAcc, List.zipWith, List.getD]⟩

/-- The latest enriched row as `get_ta_score` reads it (`last.get(...)`):
each cell is a float that may be NaN (`none`). -/
structure TARow where
  rsi : Option ℚ
  macd_hist : Option ℚ
  bb_pct : Option ℚ
  sma_cross : Option ℚ
  vol_rat : Option ℚ
  stoch_k : Option ℚ
deriving DecidableEq

/-- Float comparison `cell < c`: false when the cell is NaN. -/
def oltQ (a : Option ℚ) (c : ℚ) : Bool :=
  match a with
  | some x => decide (x < c)
  | none => false

/-- Float comparison `cell > c`: false when the cell is NaN. -/
def ogtQ (a : Option ℚ) (c : ℚ) : Bool :=
  match a with
  | some x => decide (c < x)
  | none => false

/-- Float multiplication by a constant: NaN propagates. -/
def omulC (a : Option ℚ) (c : ℚ) : Option ℚ := a.map (· * c)

/-- CPython `min(c, x)`: the candidate replaces the current value only when
`x < c` holds, so a NaN candidate leaves `c`. -/
def pyminC (c : ℚ) (a : Option ℚ) : ℚ :=
  match a with
  | some x => if x < c then x else c
  | none => c

/-- CPython `max(c, x)`: the candidate replaces the current value only when
`x > c` holds, so a NaN candidate leaves `c`. -/
def pymaxC (c : ℚ) (a : Option ℚ) : ℚ :=
  match a with
  | some x => if c < x then x else c
  | none => c

/-- RSI sub-score of `get_ta_score` (first matching threshold wins). -/
def rsi_part (r : Option ℚ) : ℚ :=
  if oltQ r 30 then 30
  else if oltQ r 40 then 15
  else if ogtQ r 70 then -30
  else if ogtQ r 60 then -15
  else 0

/-- MACD-histogram sub-score: `min(25, hist*100)` when positive, else
`max(-25, hist*100)`. -/
def macd_part (m : Option ℚ) : ℚ :=
  if ogtQ m 0 then pyminC 25 (omulC m 100) else pymaxC (-25) (omulC m 100)

/-- Bollinger percent-b sub-score. -/
def bb_part (b : Option ℚ) : ℚ :=
  if oltQ b (1/10) then 20 else if ogtQ b (9/10) then -20 else 0

/-- SMA crossover sub-score. -/
def sma_part (s : Option ℚ) : ℚ := if ogtQ s 0 then 15 else -15

/-- Volume-ratio sub-score. -/
def vol_part (v : Option ℚ) : ℚ :=
  if ogtQ v 2 then 10 else if oltQ v (1/2) then -5 else 0

/-- Stochastic %K sub-score. -/
def stoch_part (k : Option ℚ) : ℚ :=
  if oltQ k 20 then 15 else if ogtQ k 80 then -15 else 0

/-- The `score_parts` list accumulated by `get_ta_score`, in code order. -/
def ta_parts (last : TARow) : List ℚ :=
  [rsi_part last.rsi, macd_part last.macd_hist, bb_part last.bb_pct,
   sma_part last.sma_cross, vol_part last.vol_rat, stoch_part last.stoch_k]

/-- `get_ta_score` of `indicators.py`: `(0, empty)` on fewer than 50 bars,
otherwise the threshold sub-scores of the latest row summed and clamped to
`[-100, 100]`, returned with the sub-score breakdown. -/
def get_ta_score (n : ℕ) (last : TARow) : ℚ × List ℚ :=
  if n < 50 then (0, [])
  else (clamp (-100) 100 (ta_parts last).sum, ta_parts last)

/-- C8: for at least 50 enriched bars the technical score is within
`[-100, 100]` for every possible latest row, and the synthetic row
RSI=25, MACD_hist=0.5, BB_pct=0.05, SMA_cross=1, Volume_ratio=3.0,
Stoch_K=15 produces the sub-scores [30, 25, 20, 15, 10, 15], whose sum 115
is clamped to a final score of 100. -/
theorem get_ta_score_bounds_and_sample (n : ℕ) (last : TARow) (h : 50 ≤ n) :
    (-100 ≤ (get_ta_score n last).1 ∧ (get_ta_score n last).1 ≤ 100) ∧
    get_ta_score n ⟨some 25, some (1/2), some (1/20), some 1, some 3, some 15⟩
      = (100, [30, 25, 20, 15, 10, 15]) := by
  have hn : ¬ n < 50 := by omega
  constructor
  · have hfst : (get_ta_score n last).1 = clamp (-100) 100 (ta_parts last).sum := by
      rw [get_ta_score, if_neg hn]
    rw [hfst]
    exact clamp_mem _ _ _ (by norm_num)
  · rw [get_ta_score, if_neg hn]
    norm_num [ta_parts, rsi_part, macd_part, bb_part, sma_part, vol_part,
      stoch_part, oltQ, ogtQ, omulC, pyminC, pymaxC, clamp]

/-- Witness for `get_ta_score_bounds_and_sample` at exactly 50 bars. -/
theorem get_ta_score_bounds_and_sample_witness :
    get_ta_score 50 ⟨some 25, some (1/2), some (1/20), some 1, some 3, some 15⟩
      = (100, [30, 25, 20, 15, 10, 15]) :=
  (get_ta_score_bounds_and_sample 50
    ⟨some 25, some (1/2), some (1/20), some 1, some 3, some 15⟩ (le_refl 50)).2

/-- A row of the predictor's frame after `compute_all`: the close price and
the `FEATURE_COLS` cells, where a `none` cell models NaN. -/
structure PRow where
  close : ℚ
  feats : List (Option ℚ)
deriving DecidableEq

/-- The label column of `prepare_features`:
`Target = (Close.shift(-1)/Close - 1 > 0).astype(int)`.  On the last row
`Future_Return` is NaN and `NaN > 0` is false, so the label is coerced to
0, not NaN. -/
def targetAt (closes : List ℚ) (i : ℕ) : ℕ :=
  match closes[i + 1]?, closes[i]? with
  | some nxt, some cur => if 0 < nxt / cur - 1 then 1 else 0
  | _, _ => 0

/-- The NaN mask of `prepare_features`: a row survives iff every feature
cell is defined (`feature_df.notna().all(axis=1)`; the `target.notna()`
conjunct is always true because `Target` was already cast to int). -/
def rowValid (r : PRow) : Bool := r.feats.all (fun c => c.isSome)

/-- The feature vector of a valid row. -/
def cellsOf (r : PRow) : List ℚ := r.feats.map (fun c => c.getD 0)

/-- `prepare_features`: the list of (feature vector, label) pairs of the
rows that pass the NaN mask, in order. -/
def prepare_features (df : List PRow) : List (List ℚ × ℕ) :=
  (List.range df.length).filterMap (fun i =>
    match df[i]? with
    | some r =>
        if rowValid r then some (cellsOf r, targetAt (df.map PRow.close) i)
        else none
    | none => none)

/-- The persisted state `train_model`/`predict` touch: the model and scaler
files and the append-only metrics and prediction stores.  The fitted
classifier and scaler are opaque numerical objects; they are represented by
the training inputs that determine them, and the persisted metrics row by
its sample count. -/
structure Store where
  model : Option (List (List ℚ) × List ℕ)
  scaler : Option (List (List ℚ))
  metricsLog : List ℕ
  predLog : List (String × ℚ × ℚ)
deriving DecidableEq

/-- The state before any training: no model file, no scaler file, empty
stores. -/
def emptyStore : Store := ⟨none, none, [], []⟩

/-- `train_model` of `predictor.py`: `None` (insufficient data) when the
raw frame, or the filtered feature/label set, has fewer than
`MIN_TRAINING_SAMPLES` rows — in both cases before anything is written;
otherwise the model+scaler pair is saved and a metrics row appended. -/
def train_model (df : List PRow) (st : Store) : Option ℕ × Store :=
  if df.length < MIN_TRAINING_SAMPLES then (none, st)
  else
    if (prepare_features df).length < MIN_TRAINING_SAMPLES then (none, st)
    else
      (some (prepare_features df).length,
        { st with
            model := some ((prepare_features df).map Prod.fst,
              (prepare_features df).map Prod.snd),
            scaler := some ((prepare_features df).map Prod.fst),
            metricsLog := st.metricsLog ++ [(prepare_features df).length] })

/-- The number of rows that are valid in the spec's sense: a fully defined
feature vector and a defined label, where a label is defined only when the
next bar exists. -/
def specValidRows (df : List PRow) : ℕ :=
  ((List.range df.length).filter (fun i =>
    (match df[i]? with
     | some r => rowValid r
     | none => false) && decide (i + 1 < df.length))).length

/-- A 61-row frame whose features are defined on rows 1..60: the code's
filter keeps 60 rows (including the last row, whose label is coerced), but
only 59 rows carry a defined label in the spec's sense. -/
def c5df : List PRow := ⟨1, [none]⟩ :: List.replicate 60 ⟨1, [some 1]⟩

/-- C5: on `c5df` only 59 rows have both a defined label and a defined
feature vector — below the minimum of 60 — yet `train_model` trains anyway
and persists a model, because the NaN future-return of the last row is
silently coerced to label 0 and the dead `target.notna()` filter keeps it. -/
theorem train_model_insufficient_label_rows :
    specValidRows c5df = 59 ∧ specValidRows c5df < MIN_TRAINING_SAMPLES ∧
    (train_model c5df emptyStore).1 = some 60 ∧
    (train_model c5df emptyStore).2.model ≠ none ∧
    (train_model c5df emptyStore).2 ≠ emptyStore := by
  refine ⟨by decide, by decide, by decide, by decide, by decide⟩

/-- A prediction result: direction, class confidence, estimated change. -/
structure PredResult where
  direction : String
  confidence : ℚ
  change_pct : ℚ
deriving DecidableEq

/-- The neutral fallback `{direction: NEUTRAL, confidence: 0, change_pct: 0}`. -/
def neutralPred : PredResult := ⟨"NEUTRAL", 0, 0⟩

/-- Python `round(x, d)` on the rational model. -/
def roundTo (d : ℕ) (x : ℚ) : ℚ :=
  ((round ((10 ^ d : ℚ) * x) : ℤ) : ℚ) / (10 ^ d : ℚ)

/-- `df["Close"].pct_change().tail(20).abs().mean()`: the mean absolute
daily percent change over the last (up to) 20 defined changes. -/
def recentChange (closes : List ℚ) : ℚ :=
  ((List.zipWith (fun cur prev => cur / prev - 1) closes.tail closes).drop
      ((List.zipWith (fun cur prev => cur / prev - 1) closes.tail closes).length - 20)
    |>.map (fun x => |x|)).sum /
  (((List.zipWith (fun cur prev => cur / prev - 1) closes.tail closes).drop
      ((List.zipWith (fun cur prev => cur / prev - 1) closes.tail closes).length - 20)).length : ℚ)

/-- The body of `predict` after the model exists: load model+scaler (both
or fall to neutral), bail to neutral on an empty frame or a NaN feature in
the latest row, otherwise ask the classifier, build the result and append a
prediction record.  The classifier inference itself (`model.predict` /
`predict_proba` on the scaled row) is an opaque numerical procedure,
abstracted as the function argument `clf` returning (is-up, confidence). -/
def predictCore (clf : (List (List ℚ) × List ℕ) → List ℚ → Bool × ℚ)
    (df : List PRow) (st : Store) : PredResult × Store :=
  match st.model, st.scaler with
  | some m, some _ =>
    if df.isEmpty then (neutralPred, st)
    else
      match df.getLast? with
      | none => (neutralPred, st)
      | some lastRow =>
        if rowValid lastRow then
          ({ direction := if (clf m (cellsOf lastRow)).1 then "UP" else "DOWN",
             confidence := roundTo 4 (clf m (cellsOf lastRow)).2,
             change_pct := roundTo 2 (if (clf m (cellsOf lastRow)).1 then
               recentChange (df.map PRow.close) * 100
               else -(recentChange (df.map PRow.close) * 100)) },
           { st with predLog := st.predLog ++
              [(if (clf m (cellsOf lastRow)).1 then "UP" else "DOWN",
                (clf m (cellsOf lastRow)).2,
                if (clf m (cellsOf lastRow)).1 then
                  recentChange (df.map PRow.close) * 100
                else -(recentChange (df.map PRow.close) * 100))] })
        else (neutralPred, st)
  | _, _ => (neutralPred, st)

/-- `predict` of `predictor.py`, additionally reporting how many training
attempts the call made: when no model file exists it trains exactly once,
and a failed training attempt (a `None` result) yields the neutral
fallback. -/
def predict (clf : (List (List ℚ) × List ℕ) → List ℚ → Bool × ℚ)
    (df : List PRow) (st : Store) : PredResult × Store × ℕ :=
  if st.model.isSome then
    ((predictCore clf df st).1, (predictCore clf df st).2, 0)
  else
    match (train_model df st).1 with
    | none => (neutralPred, (train_model df st).2, 1)
    | some _ =>
      ((predictCore clf df (train_model df st).2).1,
       (predictCore clf df (train_model df st).2).2, 1)

/-- C6: with no persisted model, `predict` makes exactly one training
attempt before returning, and when that attempt fails it returns the
neutral result rather than propagating the error. -/
theorem predict_lazy_train_once
    (clf : (List (List ℚ) × List ℕ) → List ℚ → Bool × ℚ)
    (df : List PRow) (st : Store) (h : st.model = none) :
    (predict clf df st).2.2 = 1 ∧
    ((train_model df st).1 = none → (predict clf df st).1 = neutralPred) := by
  have hm : ¬ st.model.isSome = true := by rw [h]; simp
  rw [predict, if_neg hm]
  cases ht : (train_model df st).1 with
  | none => simp [ht]
  | some k => simp [ht]

/-- Witness for `predict_lazy_train_once`: an empty frame and an empty
store (training fails for lack of data, so the result is neutral after one
attempt). -/
theorem predict_lazy_train_once_witness :
    (predict (fun _ _ => (true, 0)) [] emptyStore).2.2 = 1 ∧
    (predict (fun _ _ => (true, 0)) [] emptyStore).1 = neutralPred := by
  have h := predict_lazy_train_once (fun _ _ => (true, 0)) [] emptyStore rfl
  exact ⟨h.1, h.2 (by decide)⟩

/-- A sub-scorer's contribution to the breakdown: its detail payload on
success, or the caught exception's message. -/
inductive SubDetail where
  | payload (d : String)
  | errNote (e : String)
deriving DecidableEq

/-- The try/except around each sub-scorer in `generate_signal`
(`signals.py` lines 46-71): a raised exception is caught and replaced by
score 0 plus an error annotation in the details. -/
def subScore (r : Except String (ℚ × String)) : ℚ × SubDetail :=
  match r with
  | .ok (s, d) => (s, .payload d)
  | .error e => (0, .errNote e)

/-- The signal record `generate_signal` returns. -/
structure SignalOutput where
  ticker : String
  signal : String
  edge : ℚ
  ml_detail : SubDetail
  ta_detail : SubDetail
  sent_detail : SubDetail
deriving DecidableEq

/-- The record `generate_signal` assembles once the three sub-scorer
outcomes are in hand: edge score from the caught contributions with the
configured weights, classification, and the per-source details. -/
def composedSignal (ticker : String)
    (mlR taR sentR : Except String (ℚ × String)) : SignalOutput :=
  { ticker := ticker,
    signal := classify_signal (edge_score (subScore mlR).1 (subScore taR).1
      (subScore sentR).1 WEIGHT_ML WEIGHT_TECHNICAL WEIGHT_SENTIMENT),
    edge := edge_score (subScore mlR).1 (subScore taR).1 (subScore sentR).1
      WEIGHT_ML WEIGHT_TECHNICAL WEIGHT_SENTIMENT,
    ml_detail := (subScore mlR).2,
    ta_detail := (subScore taR).2,
    sent_detail := (subScore sentR).2 }

/-- `generate_signal` of `signals.py`: `None` when no data is available,
otherwise the three sub-scorer outcomes (each a value or a raised
exception) are absorbed by `subScore` and composed into the edge score with
the configured weights. -/
def generate_signal (ticker : String) (df : List Bar)
    (mlR taR sentR : Except String (ℚ × String)) : Option SignalOutput :=
  if df.isEmpty then none
  else some (composedSignal ticker mlR taR sentR)

/-- C4: on a non-empty frame, the failure of any one of the three
sub-scorers is caught locally: a complete signal is still returned, the
failed source contributes a neutral 0 to the composition, and the breakdown
carries its error annotation. -/
theorem generate_signal_absorbs_failures (tk : String) (df : List Bar)
    (hdf : df ≠ []) (e : String) (r₁ r₂ : Except String (ℚ × String)) :
    (∃ out, generate_signal tk df (.error e) r₁ r₂ = some out ∧
      out.ml_detail = .errNote e ∧
      out.edge = edge_score 0 (subScore r₁).1 (subScore r₂).1
        WEIGHT_ML WEIGHT_TECHNICAL WEIGHT_SENTIMENT) ∧
    (∃ out, generate_signal tk df r₁ (.error e) r₂ = some out ∧
      out.ta_detail = .errNote e ∧
      out.edge = edge_score (subScore r₁).1 0 (subScore r₂).1
        WEIGHT_ML WEIGHT_TECHNICAL WEIGHT_SENTIMENT) ∧
    (∃ out, generate_signal tk df r₁ r₂ (.error e) = some out ∧
      out.sent_detail = .errNote e ∧
      out.edge = edge_score (subScore r₁).1 (subScore r₂).1 0
        WEIGHT_ML WEIGHT_TECHNICAL WEIGHT_SENTIMENT) := by
  have hne : ¬ df.isEmpty = true := by simp [hdf]
  have mk : ∀ (a b c : Except String (ℚ × String)), generate_signal tk df a b c
      = some (composedSignal tk a b c) := by
    intro a b c
    rw [generate_signal, if_neg hne]
  exact ⟨⟨_, mk _ _ _, rfl, rfl⟩, ⟨_, mk _ _ _, rfl, rfl⟩, ⟨_, mk _ _ _, rfl, rfl⟩⟩

/-- Witness for `generate_signal_absorbs_failures`: one bar, a raised ML
scorer, successful technical and sentiment scorers. -/
theorem generate_signal_absorbs_failures_witness :
    ∃ out, generate_signal "X" [⟨1, 1, 1, 1, 1⟩] (Except.error "boom")
        (Except.ok (10, "ta")) (Except.ok (20, "sent")) = some out ∧
      out.ml_detail = SubDetail.errNote "boom" ∧
      out.edge = edge_score 0 10 20 WEIGHT_ML WEIGHT_TECHNICAL WEIGHT_SENTIMENT :=
  (generate_signal_absorbs_failures "X" [⟨1, 1, 1, 1, 1⟩] (by simp) "boom"
    (.ok (10, "ta")) (.ok (20, "sent"))).1

end FinEdge
